import Mathlib

/-!
Verification of the dp-cache refresh engine (`cache.go`).

The Go code is embedded shallowly:

* the `sync.Map` store becomes an association list `List (String × GoVal)`
  with lookup (`Load`) and insert-or-replace (`Store`);
* a Go `interface` value becomes the inductive `GoVal`;
* the registry `map[string]func() (interface, error)` becomes an
  association list of update functions, fixed in one iteration order
  (Go map iteration order is unspecified);
* the unbuffered `close` channel is modelled by the flag `taskRunning`:
  a send on the channel completes exactly when the background goroutine
  spawned by `StartUpdates` is alive to receive it, and `Close` returns
  `none` when the send blocks forever;
* an `error` is modelled by its message string.
-/

set_option autoImplicit false

namespace DpCache

/-- A dynamically typed value as stored in the cache (a Go `interface`
value): the constructors cover the types the library and its tests store,
plus the untyped `nil`. -/
inductive GoVal where
  | str (s : String)
  | int (n : Int)
  | bool (b : Bool)
  | nil
deriving DecidableEq, Repr

/-- Store lookup, Go `sync.Map.Load`: the value for `key`, or `none` when
the key was never stored. -/
def storeGet (store : List (String × GoVal)) (key : String) : Option GoVal :=
  match store with
  | [] => none
  | (k, v) :: rest => if k = key then some v else storeGet rest key

/-- Store write, Go `sync.Map.Store`: replace the value for `key`, or
append the pair when the key is new. -/
def storeSet (store : List (String × GoVal)) (key : String) (v : GoVal) :
    List (String × GoVal) :=
  match store with
  | [] => [(key, v)]
  | (k, w) :: rest =>
    if k = key then (k, v) :: rest else (k, w) :: storeSet rest key v

/-- A registered update function, Go `func() (interface, error)`. -/
def UpdateFn := Unit → Except String GoVal

/-- Cache configuration. `UpdateInterval` models the Go field
`*time.Duration`: an optional signed duration (nanosecond count). -/
structure Config where
  UpdateInterval : Option Int

/-- The cache state. `data` is the `sync.Map`; `UpdateFuncs` is the
registry in one fixed iteration order; `taskRunning` records whether the
background goroutine spawned by `StartUpdates` is currently alive, i.e.
whether a receiver is waiting on the unbuffered `close` channel. -/
structure Cache where
  data : List (String × GoVal)
  config : Config
  taskRunning : Bool
  UpdateFuncs : List (String × UpdateFn)

/-- `NewCache`: a present interval that is `<= 0` is a construction
error; otherwise a cache with empty data and empty registry is returned
(and no background task exists yet). -/
def NewCache (config : Config) : Except String Cache :=
  match config.UpdateInterval with
  | some i =>
    if i ≤ 0 then
      Except.error "cache update interval duration is less than or equal to 0"
    else
      Except.ok { data := [], config := config, taskRunning := false, UpdateFuncs := [] }
  | none =>
    Except.ok { data := [], config := config, taskRunning := false, UpdateFuncs := [] }

/-- `Get`: lookup in `data`. -/
def Get (dc : Cache) (key : String) : Option GoVal :=
  storeGet dc.data key

/-- `Set`: store `v` under `key` in `data`. -/
def Set (dc : Cache) (key : String) (v : GoVal) : Cache :=
  { dc with data := storeSet dc.data key v }

/-- Registry insert with Go map semantics: replace the function for an
existing key, otherwise add the entry. -/
def regSet (reg : List (String × UpdateFn)) (key : String) (f : UpdateFn) :
    List (String × UpdateFn) :=
  match reg with
  | [] => [(key, f)]
  | (k, g) :: rest =>
    if k = key then (k, f) :: rest else (k, g) :: regSet rest key f

/-- `AddUpdateFunc`: register or replace the update function for `key`. -/
def AddUpdateFunc (dc : Cache) (key : String) (f : UpdateFn) : Cache :=
  { dc with UpdateFuncs := regSet dc.UpdateFuncs key f }

/-- The loop body of `UpdateContent` over the remaining registry entries:
each function is invoked in turn; a success is written to the store with
`Set`; the first failure stops the loop and produces the composite error
message built by `fmt.Errorf`. -/
def updateContentAux (funcs : List (String × UpdateFn)) (dc : Cache) :
    Cache × Option String :=
  match funcs with
  | [] => (dc, none)
  | (key, f) :: rest =>
    match f () with
    | Except.error e =>
      (dc, some ("failed to update search cache for " ++ key ++ ". error: " ++ e))
    | Except.ok v => updateContentAux rest (Set dc key v)

/-- `UpdateContent`: run one refresh cycle over the registry; returns the
new state and the error of the cycle, `none` on success. -/
def UpdateContent (dc : Cache) : Cache × Option String :=
  updateContentAux dc.UpdateFuncs dc

/-- The wipe loop in `Close`: store the empty string under each
registered key. -/
def wipeKeys (keys : List String) (store : List (String × GoVal)) :
    List (String × GoVal) :=
  match keys with
  | [] => store
  | k :: rest => wipeKeys rest (storeSet store k (GoVal.str ""))

/-- `Close`. With an interval configured it first sends on the unbuffered
`close` channel: the send completes only when the background goroutine is
alive to receive it (`taskRunning`); otherwise the call blocks forever,
modelled as `none`. After the handoff it stores the empty string under
every registered key and empties the registry. With no interval
configured it does nothing. -/
def Close (dc : Cache) : Option Cache :=
  match dc.config.UpdateInterval with
  | some _ =>
    if dc.taskRunning then
      some { dc with
        data := wipeKeys (dc.UpdateFuncs.map Prod.fst) dc.data,
        UpdateFuncs := [],
        taskRunning := false }
    else
      none
  | none => some dc

/-- `StartUpdates`: with an empty registry it returns at once; with an
interval configured it spawns the ticker goroutine (second component
`true`) and performs no synchronous refresh; with no interval configured
it does nothing and spawns nothing. -/
def StartUpdates (dc : Cache) : Cache × Bool :=
  if dc.UpdateFuncs.isEmpty then (dc, false)
  else
    match dc.config.UpdateInterval with
    | some _ => ({ dc with taskRunning := true }, true)
    | none => (dc, false)

/-- Observable outcome of `StartAndManageUpdates`: the errors delivered on
the host's error channel, the state when the call returns (`none` when the
call never returns because `Close` blocked), and whether a background task
was spawned. -/
structure StartResult where
  sentErrors : List String
  finalState : Option Cache
  spawned : Bool

/-- `StartAndManageUpdates`: one synchronous `UpdateContent`; on failure
the error is sent on the error channel and `Close` is called; on success
control passes to `StartUpdates`. -/
def StartAndManageUpdates (dc : Cache) : StartResult :=
  match UpdateContent dc with
  | (dc1, some e) =>
    match Close dc1 with
    | some dc2 => ⟨[e], some dc2, false⟩
    | none => ⟨[e], none, false⟩
  | (dc1, none) =>
    let r := StartUpdates dc1
    ⟨[], some r.1, r.2⟩

/-- One externally observable operation on a cache, used to reason about
traces of calls. `update` is one refresh cycle (a direct `UpdateContent`
call or one ticker cycle of the background task); `cancel` is an external
cancellation of the governing context, which only ends the background
task. A blocked `Close` changes no state. -/
inductive Op where
  | set (key : String) (v : GoVal)
  | add (key : String) (f : UpdateFn)
  | update
  | start
  | close
  | cancel

/-- Apply one operation to a cache state. -/
def applyOp (dc : Cache) (op : Op) : Cache :=
  match op with
  | Op.set k v => Set dc k v
  | Op.add k f => AddUpdateFunc dc k f
  | Op.update => (UpdateContent dc).1
  | Op.start => (StartUpdates dc).1
  | Op.close => (Close dc).getD dc
  | Op.cancel => { dc with taskRunning := false }

/-- Run a list of operations from a starting state. -/
def runOps (dc : Cache) (ops : List Op) : Cache :=
  match ops with
  | [] => dc
  | op :: rest => runOps (applyOp dc op) rest

/-- The keys written by one refresh cycle over `funcs`: the keys of the
successful functions before the first failure. -/
def cycleWrites (funcs : List (String × UpdateFn)) (key : String) : Bool :=
  match funcs with
  | [] => false
  | (k, f) :: rest =>
    match f () with
    | Except.error _ => false
    | Except.ok _ => decide (k = key) || cycleWrites rest key

/-- Whether `op`, applied in state `dc`, writes a value under `key`. -/
def opWrites (dc : Cache) (op : Op) (key : String) : Bool :=
  match op with
  | Op.set k _ => decide (k = key)
  | Op.add _ _ => false
  | Op.update => cycleWrites dc.UpdateFuncs key
  | Op.start => false
  | Op.close =>
    match dc.config.UpdateInterval with
    | some _ => dc.taskRunning && decide (key ∈ dc.UpdateFuncs.map Prod.fst)
    | none => false
  | Op.cancel => false

/-- Whether some operation of the trace `ops`, run from `dc`, writes a
value under `key`. -/
def wroteAlong (dc : Cache) (ops : List Op) (key : String) : Bool :=
  match ops with
  | [] => false
  | op :: rest => opWrites dc op key || wroteAlong (applyOp dc op) rest key

/-! ### Store lemmas -/

theorem storeGet_storeSet (store : List (String × GoVal)) (k key : String) (v : GoVal) :
    storeGet (storeSet store k v) key = if k = key then some v else storeGet store key := by
  induction store with
  | nil => simp [storeGet, storeSet]
  | cons p rest ih =>
    obtain ⟨k', w⟩ := p
    by_cases hk : k' = k
    · subst hk
      simp [storeSet, storeGet]
      by_cases hkey : k' = key <;> simp [hkey]
    · simp [storeSet, hk, storeGet]
      by_cases hkey : k' = key
      · subst hkey
        have : ¬ k = k' := fun h => hk h.symm
        simp [this]
      · simp [hkey, ih]

theorem storeGet_wipeKeys (keys : List String) (store : List (String × GoVal)) (key : String) :
    storeGet (wipeKeys keys store) key =
      if key ∈ keys then some (GoVal.str "") else storeGet store key := by
  induction keys generalizing store with
  | nil => simp [wipeKeys]
  | cons k rest ih =>
    simp only [wipeKeys, ih, storeGet_storeSet, List.mem_cons]
    by_cases hmem : key ∈ rest
    · simp [hmem]
    · by_cases hk : k = key
      · subst hk
        simp [hmem]
      · have : ¬ key = k := fun h => hk h.symm
        simp [hmem, hk, this]

/-! ### UpdateContent lemmas -/

theorem updateContentAux_config (funcs : List (String × UpdateFn)) (dc : Cache) :
    (updateContentAux funcs dc).1.config = dc.config := by
  induction funcs generalizing dc with
  | nil => rfl
  | cons p rest ih =>
    obtain ⟨k, f⟩ := p
    simp only [updateContentAux]
    cases f () with
    | error e => rfl
    | ok v => exact ih (Set dc k v)

theorem updateContentAux_registry (funcs : List (String × UpdateFn)) (dc : Cache) :
    (updateContentAux funcs dc).1.UpdateFuncs = dc.UpdateFuncs := by
  induction funcs generalizing dc with
  | nil => rfl
  | cons p rest ih =>
    obtain ⟨k, f⟩ := p
    simp only [updateContentAux]
    cases f () with
    | error e => rfl
    | ok v => exact ih (Set dc k v)

theorem updateContentAux_taskRunning (funcs : List (String × UpdateFn)) (dc : Cache) :
    (updateContentAux funcs dc).1.taskRunning = dc.taskRunning := by
  induction funcs generalizing dc with
  | nil => rfl
  | cons p rest ih =>
    obtain ⟨k, f⟩ := p
    simp only [updateContentAux]
    cases f () with
    | error e => rfl
    | ok v => exact ih (Set dc k v)

/-- A refresh cycle never touches a key that is not in the registry part
it iterates over. -/
theorem updateContentAux_unregistered (funcs : List (String × UpdateFn)) (dc : Cache)
    (key : String) (h : key ∉ funcs.map Prod.fst) :
    storeGet (updateContentAux funcs dc).1.data key = storeGet dc.data key := by
  induction funcs generalizing dc with
  | nil => rfl
  | cons p rest ih =>
    obtain ⟨k, f⟩ := p
    simp only [List.map_cons, List.mem_cons, not_or] at h
    simp only [updateContentAux]
    cases f () with
    | error e => rfl
    | ok v =>
      rw [ih (Set dc k v) h.2]
      simp only [Set, storeGet_storeSet]
      have : ¬ k = key := fun hk => h.1 hk.symm
      simp [this]

/-- When every function of the part `pre` succeeds and the next function
fails, the cycle runs exactly `pre` and stops with the composite error of
the failing key. -/
theorem updateContentAux_split (pre post : List (String × UpdateFn)) (k : String)
    (f : UpdateFn) (e : String) (dc : Cache)
    (hpre : ∀ p ∈ pre, ∃ v, p.2 () = Except.ok v)
    (hf : f () = Except.error e) :
    updateContentAux (pre ++ (k, f) :: post) dc =
      ((updateContentAux pre dc).1,
       some ("failed to update search cache for " ++ k ++ ". error: " ++ e)) := by
  induction pre generalizing dc with
  | nil =>
    simp only [List.nil_append, updateContentAux, hf]
  | cons p rest ih =>
    obtain ⟨k0, f0⟩ := p
    obtain ⟨v0, hv0⟩ := hpre (k0, f0) (List.mem_cons_self _ _)
    simp only at hv0
    simp only [List.cons_append, updateContentAux, hv0]
    exact ih (Set dc k0 v0) (fun q hq => hpre q (List.mem_cons_of_mem _ hq))

/-- When every function of `funcs` succeeds and the registry keys are
distinct, each key reads back as its function's result. -/
theorem updateContentAux_all_ok_get (funcs : List (String × UpdateFn)) (dc : Cache)
    (hok : ∀ q ∈ funcs, ∃ w, q.2 () = Except.ok w)
    (hnodup : (funcs.map Prod.fst).Nodup)
    (p : String × UpdateFn) (hp : p ∈ funcs) (v : GoVal) (hv : p.2 () = Except.ok v) :
    storeGet (updateContentAux funcs dc).1.data p.1 = some v := by
  induction funcs generalizing dc with
  | nil => cases hp
  | cons q rest ih =>
    obtain ⟨k0, f0⟩ := q
    simp only [List.map_cons, List.nodup_cons] at hnodup
    rcases List.mem_cons.mp hp with hhead | htail
    · subst hhead
      simp only at hv
      show storeGet (updateContentAux ((k0, f0) :: rest) dc).1.data k0 = some v
      simp only [updateContentAux, hv]
      rw [updateContentAux_unregistered rest (Set dc k0 v) k0 hnodup.1]
      simp [Set, storeGet_storeSet]
    · obtain ⟨v0, hv0⟩ := hok (k0, f0) (List.mem_cons_self _ _)
      simp only at hv0
      simp only [updateContentAux, hv0]
      exact ih (Set dc k0 v0) (fun q hq => hok q (List.mem_cons_of_mem _ hq)) hnodup.2 htail

/-! ### StartUpdates and NewCache lemmas -/

theorem startUpdates_data (dc : Cache) : (StartUpdates dc).1.data = dc.data := by
  unfold StartUpdates
  by_cases h : dc.UpdateFuncs.isEmpty
  · simp [h]
  · simp only [h]
    cases dc.config.UpdateInterval <;> simp

theorem startUpdates_nilInterval (dc : Cache) (h : dc.config.UpdateInterval = none) :
    StartUpdates dc = (dc, false) := by
  unfold StartUpdates
  rw [h]
  by_cases he : dc.UpdateFuncs.isEmpty <;> simp [he]

theorem newCache_ok (cfg : Config) (dc : Cache) (h : NewCache cfg = Except.ok dc) :
    dc.data = [] ∧ dc.UpdateFuncs = [] ∧ dc.config = cfg ∧ dc.taskRunning = false := by
  unfold NewCache at h
  cases hc : cfg.UpdateInterval with
  | none =>
    rw [hc] at h
    cases h
    exact ⟨rfl, rfl, rfl, rfl⟩
  | some i =>
    rw [hc] at h
    simp only at h
    by_cases hi : i ≤ 0
    · rw [if_pos hi] at h
      cases h
    · rw [if_neg hi] at h
      cases h
      exact ⟨rfl, rfl, rfl, rfl⟩

/-! ### Trace lemmas: a key reads back as absent exactly when nothing
ever wrote it -/

theorem updateContentAux_none_iff (funcs : List (String × UpdateFn)) (dc : Cache)
    (key : String) :
    storeGet (updateContentAux funcs dc).1.data key = none ↔
      (storeGet dc.data key = none ∧ cycleWrites funcs key = false) := by
  induction funcs generalizing dc with
  | nil => simp [updateContentAux, cycleWrites]
  | cons p rest ih =>
    obtain ⟨k, f⟩ := p
    simp only [updateContentAux, cycleWrites]
    cases f () with
    | error e => simp
    | ok v =>
      rw [ih (Set dc k v)]
      simp only [Set, storeGet_storeSet]
      by_cases hk : k = key
      · simp [hk]
      · simp [hk, and_assoc]

theorem applyOp_none_iff (dc : Cache) (op : Op) (key : String) :
    storeGet (applyOp dc op).data key = none ↔
      (storeGet dc.data key = none ∧ opWrites dc op key = false) := by
  cases op with
  | set k v =>
    simp only [applyOp, opWrites, Set, storeGet_storeSet]
    by_cases hk : k = key <;> simp [hk]
  | add k f => simp [applyOp, opWrites, AddUpdateFunc]
  | update => exact updateContentAux_none_iff dc.UpdateFuncs dc key
  | start => simp [applyOp, opWrites, startUpdates_data]
  | close =>
    simp only [applyOp, opWrites, Close]
    cases dc.config.UpdateInterval with
    | none => simp
    | some i =>
      by_cases ht : dc.taskRunning
      · simp only [ht, if_true, Option.getD_some, storeGet_wipeKeys]
        by_cases hmem : key ∈ dc.UpdateFuncs.map Prod.fst <;> simp [hmem]
      · simp [ht]
  | cancel => simp [applyOp, opWrites]

theorem runOps_none_iff (ops : List Op) (dc : Cache) (key : String) :
    storeGet (runOps dc ops).data key = none ↔
      (storeGet dc.data key = none ∧ wroteAlong dc ops key = false) := by
  induction ops generalizing dc with
  | nil => simp [runOps, wroteAlong]
  | cons op rest ih =>
    simp only [runOps, wroteAlong, ih (applyOp dc op), applyOp_none_iff,
      Bool.or_eq_false_iff]
    tauto

/-! ### Concrete caches used as inputs of witnesses and counterexamples -/

/-- Update function returning the string value v. -/
def fnOkV : UpdateFn := fun _ => Except.ok (GoVal.str "v")

/-- Update function returning the integer 1. -/
def fnOkOne : UpdateFn := fun _ => Except.ok (GoVal.int 1)

/-- Update function returning the integer 3. -/
def fnOkThree : UpdateFn := fun _ => Except.ok (GoVal.int 3)

/-- Update function returning the integer 7. -/
def fnOkSeven : UpdateFn := fun _ => Except.ok (GoVal.int 7)

/-- Update function failing with message boom. -/
def fnBoom : UpdateFn := fun _ => Except.error "boom"

/-- A nil-interval cache with one registered update function. -/
def oneShotCache : Cache :=
  { data := [], config := ⟨none⟩, taskRunning := false, UpdateFuncs := [("k", fnOkV)] }

/-- An interval-configured cache whose second registered function fails. -/
def failMidCache : Cache :=
  { data := [], config := ⟨some 5⟩, taskRunning := false,
    UpdateFuncs := [("a", fnOkOne), ("b", fnBoom), ("c", fnOkThree)] }

/-- An interval-configured cache whose first registered function fails
and whose second succeeds. -/
def failFirstCache : Cache :=
  { data := [], config := ⟨some 5⟩, taskRunning := false,
    UpdateFuncs := [("bad", fnBoom), ("good", fnOkSeven)] }

/-! ### C1 -/

/-- C1 (amended): with no update interval configured, `StartUpdates` runs
no update function at all (the state, in particular the store, is
unchanged) and spawns no background task; the single synchronous refresh
of refresh-once mode happens only through `StartAndManageUpdates`, which
calls `UpdateContent` once and then delegates to `StartUpdates`. -/
theorem startUpdates_nil_interval_runs_nothing (dc : Cache)
    (h : dc.config.UpdateInterval = none) :
    StartUpdates dc = (dc, false)
    ∧ ((UpdateContent dc).2 = none →
        StartAndManageUpdates dc = ⟨[], some (UpdateContent dc).1, false⟩) := by
  refine ⟨startUpdates_nilInterval dc h, ?_⟩
  intro h2
  have hcfg : (UpdateContent dc).1.config = dc.config := by
    unfold UpdateContent
    exact updateContentAux_config dc.UpdateFuncs dc
  unfold StartAndManageUpdates
  cases hu : UpdateContent dc with
  | mk dc1 err =>
    rw [hu] at h2 hcfg
    simp only at h2 hcfg
    subst h2
    have hs : StartUpdates dc1 = (dc1, false) := by
      apply startUpdates_nilInterval
      rw [hcfg, h]
    simp [hs]

/-- C1 counterexample: on a nil-interval cache with one registered
function producing the string v for key k, `StartUpdates` writes nothing
(the claim requires `Get` to return that result after the call) and
spawns no task. -/
theorem startUpdates_nil_interval_counterexample :
    Get (StartUpdates oneShotCache).1 "k" = none
    ∧ (StartUpdates oneShotCache).2 = false :=
  ⟨rfl, rfl⟩

/-- Witness for the amended C1 theorem at `oneShotCache`. -/
theorem startUpdates_nil_interval_runs_nothing_witness :
    StartUpdates oneShotCache = (oneShotCache, false)
    ∧ ((UpdateContent oneShotCache).2 = none →
        StartAndManageUpdates oneShotCache = ⟨[], some (UpdateContent oneShotCache).1, false⟩) :=
  startUpdates_nil_interval_runs_nothing oneShotCache rfl

/-! ### C2 -/

/-- C2: `UpdateContent` stops at the first failing update function,
returns the single composite error naming the failing key and its cause,
and keeps every `Set` already applied for the earlier keys of the cycle:
the final state is exactly the state after running the successful part
before the failure, and each of those keys reads back as its function's
result. -/
theorem updateContent_first_failure_stops_and_keeps (dc : Cache)
    (pre post : List (String × UpdateFn)) (k : String) (f : UpdateFn) (e : String)
    (hreg : dc.UpdateFuncs = pre ++ (k, f) :: post)
    (hnodup : (dc.UpdateFuncs.map Prod.fst).Nodup)
    (hpre : ∀ p ∈ pre, ∃ v, p.2 () = Except.ok v)
    (hf : f () = Except.error e) :
    (UpdateContent dc).2 = some ("failed to update search cache for " ++ k ++ ". error: " ++ e)
    ∧ (UpdateContent dc).1 = (updateContentAux pre dc).1
    ∧ (∀ p ∈ pre, ∀ v, p.2 () = Except.ok v →
        storeGet (UpdateContent dc).1.data p.1 = some v) := by
  have hsplit := updateContentAux_split pre post k f e dc hpre hf
  have h1 : (UpdateContent dc).2 =
      some ("failed to update search cache for " ++ k ++ ". error: " ++ e) := by
    unfold UpdateContent
    rw [hreg, hsplit]
  have h2 : (UpdateContent dc).1 = (updateContentAux pre dc).1 := by
    unfold UpdateContent
    rw [hreg, hsplit]
  refine ⟨h1, h2, ?_⟩
  intro p hp v hv
  rw [h2]
  have hnodup' : (pre.map Prod.fst).Nodup := by
    rw [hreg] at hnodup
    simp only [List.map_append] at hnodup
    exact hnodup.of_append_left
  exact updateContentAux_all_ok_get pre dc hpre hnodup' p hp v hv

/-- Witness for C2 at `failMidCache`: the cycle stops at key b, reports
its error, and key a keeps its freshly written value. -/
theorem updateContent_first_failure_stops_and_keeps_witness :
    (UpdateContent failMidCache).2 =
      some ("failed to update search cache for " ++ "b" ++ ". error: " ++ "boom")
    ∧ (UpdateContent failMidCache).1 = (updateContentAux [("a", fnOkOne)] failMidCache).1
    ∧ (∀ p ∈ [("a", fnOkOne)], ∀ v, p.2 () = Except.ok v →
        storeGet (UpdateContent failMidCache).1.data p.1 = some v) :=
  updateContent_first_failure_stops_and_keeps failMidCache
    [("a", fnOkOne)] [("c", fnOkThree)] "b" fnBoom "boom" rfl
    (by decide)
    (by
      intro p hp
      simp only [List.mem_singleton] at hp
      subst hp
      exact ⟨GoVal.int 1, rfl⟩)
    rfl

/-! ### C3 -/

/-- C3 counterexample: in a registry where the failing function is
iterated first, the error does name the failing key, but the other
registered key is NOT updated in that call (its function is never
invoked), contradicting the claim that all other keys are still updated. -/
theorem updateContent_later_key_not_updated_cex :
    (UpdateContent failFirstCache).2 =
      some "failed to update search cache for bad. error: boom"
    ∧ Get (UpdateContent failFirstCache).1 "good" = none :=
  ⟨rfl, rfl⟩

/-- C3 (amended): when one registered function fails, `UpdateContent`
returns an error naming that function's key; the keys iterated before
the failure are updated, but the failing key and every key iterated
after it are left unchanged for that call (under the unspecified Go map
iteration order, which other keys get updated is not guaranteed). -/
theorem updateContent_failure_earlier_keys_only (dc : Cache)
    (pre post : List (String × UpdateFn)) (k : String) (f : UpdateFn) (e : String)
    (hreg : dc.UpdateFuncs = pre ++ (k, f) :: post)
    (hnodup : (dc.UpdateFuncs.map Prod.fst).Nodup)
    (hpre : ∀ p ∈ pre, ∃ v, p.2 () = Except.ok v)
    (hf : f () = Except.error e) :
    (UpdateContent dc).2 = some ("failed to update search cache for " ++ k ++ ". error: " ++ e)
    ∧ (∀ p ∈ pre, ∀ v, p.2 () = Except.ok v → Get (UpdateContent dc).1 p.1 = some v)
    ∧ (∀ p ∈ post, Get (UpdateContent dc).1 p.1 = Get dc p.1)
    ∧ Get (UpdateContent dc).1 k = Get dc k := by
  have hsplit := updateContentAux_split pre post k f e dc hpre hf
  have h1 : (UpdateContent dc).2 =
      some ("failed to update search cache for " ++ k ++ ". error: " ++ e) := by
    unfold UpdateContent
    rw [hreg, hsplit]
  have h2 : (UpdateContent dc).1 = (updateContentAux pre dc).1 := by
    unfold UpdateContent
    rw [hreg, hsplit]
  rw [hreg] at hnodup
  simp only [List.map_append, List.map_cons] at hnodup
  rw [List.nodup_append] at hnodup
  obtain ⟨hnpre, -, hdisj⟩ := hnodup
  refine ⟨h1, ?_, ?_, ?_⟩
  · intro p hp v hv
    rw [Get, h2]
    exact updateContentAux_all_ok_get pre dc hpre hnpre p hp v hv
  · intro p hp
    rw [Get, Get, h2]
    apply updateContentAux_unregistered
    intro hmem
    exact (hdisj hmem) (List.mem_cons_of_mem k (List.mem_map_of_mem Prod.fst hp))
  · rw [Get, Get, h2]
    apply updateContentAux_unregistered
    intro hmem
    exact (hdisj hmem) (List.mem_cons_self k _)

/-- Witness for the amended C3 theorem at `failFirstCache`. -/
theorem updateContent_failure_earlier_keys_only_witness :
    (UpdateContent failFirstCache).2 =
      some ("failed to update search cache for " ++ "bad" ++ ". error: " ++ "boom")
    ∧ (∀ p ∈ ([] : List (String × UpdateFn)), ∀ v, p.2 () = Except.ok v →
        Get (UpdateContent failFirstCache).1 p.1 = some v)
    ∧ (∀ p ∈ [("good", fnOkSeven)],
        Get (UpdateContent failFirstCache).1 p.1 = Get failFirstCache p.1)
    ∧ Get (UpdateContent failFirstCache).1 "bad" = Get failFirstCache "bad" :=
  updateContent_failure_earlier_keys_only failFirstCache
    [] [("good", fnOkSeven)] "bad" fnBoom "boom" rfl
    (by decide)
    (fun p hp => absurd hp (List.not_mem_nil p))
    rfl

/-! ### C4 -/

/-- An interval-configured cache with a running background task, one
registered function and one stored value. -/
def runningCache : Cache :=
  { data := [("a", GoVal.int 1)], config := ⟨some 5⟩, taskRunning := true,
    UpdateFuncs := [("a", fnOkOne)] }

/-- A nil-interval cache holding one stored value. -/
def nilCloseCache : Cache :=
  { data := [("a", GoVal.int 1)], config := ⟨none⟩, taskRunning := false,
    UpdateFuncs := [] }

/-- C4: on an interval-configured cache whose background task is running
(so the rendezvous on the `close` channel completes), `Close` resets the
stored value of every registered key to the empty value and empties the
registry; on a nil-interval cache, `Close` is a no-op that changes
neither the stored data nor the registry. -/
theorem close_resets_and_empties (dc : Cache) :
    (∀ i, dc.config.UpdateInterval = some i → 0 < i → dc.taskRunning = true →
      ∃ dc', Close dc = some dc'
        ∧ (∀ key ∈ dc.UpdateFuncs.map Prod.fst, Get dc' key = some (GoVal.str ""))
        ∧ dc'.UpdateFuncs = [])
    ∧ (dc.config.UpdateInterval = none → Close dc = some dc) := by
  constructor
  · intro i hi _ ht
    have hc : Close dc = some
        { dc with
          data := wipeKeys (dc.UpdateFuncs.map Prod.fst) dc.data,
          UpdateFuncs := [],
          taskRunning := false } := by
      unfold Close
      rw [hi]
      simp [ht]
    refine ⟨_, hc, ?_, rfl⟩
    intro key hk
    simp [Get, storeGet_wipeKeys, hk]
  · intro hn
    unfold Close
    rw [hn]

/-- Witness for C4 at `runningCache` and `nilCloseCache`. -/
theorem close_resets_and_empties_witness :
    (∃ dc', Close runningCache = some dc'
      ∧ (∀ key ∈ runningCache.UpdateFuncs.map Prod.fst, Get dc' key = some (GoVal.str ""))
      ∧ dc'.UpdateFuncs = [])
    ∧ Close nilCloseCache = some nilCloseCache :=
  ⟨(close_resets_and_empties runningCache).1 5 rfl (by decide) rfl,
   (close_resets_and_empties nilCloseCache).2 rfl⟩

/-! ### C5 -/

/-- An interval-configured cache whose single update function fails,
before any background task exists: the state in which the synchronous
phase of `StartAndManageUpdates` runs. -/
def failingInitCache : Cache :=
  { data := [], config := ⟨some 1⟩, taskRunning := false,
    UpdateFuncs := [("k", fnBoom)] }

/-- C5, evaluated at the failing input: when the initial synchronous
`UpdateContent` of `StartAndManageUpdates` fails on an
interval-configured cache, the error is delivered on the host's error
channel and no background task is started, but the `Close` call then
blocks forever on the unbuffered `close` channel (no goroutine exists to
receive the rendezvous, `finalState = none`): the engine is never
actually closed, contradicting the intended immediate close. -/
theorem startAndManage_initial_failure_blocks_in_close :
    StartAndManageUpdates failingInitCache =
      ⟨["failed to update search cache for k. error: boom"], none, false⟩ :=
  rfl

/-! ### C6 -/

/-- C6: construction with a present interval that is zero or negative
fails with the configuration error and yields no cache; construction
with an absent interval or a strictly positive one yields a usable
cache (empty store, empty registry, the given configuration) and no
error. -/
theorem newCache_interval_validation (cfg : Config) :
    ((∃ i, cfg.UpdateInterval = some i ∧ i ≤ 0) →
      NewCache cfg = Except.error "cache update interval duration is less than or equal to 0")
    ∧ ((cfg.UpdateInterval = none ∨ ∃ i, cfg.UpdateInterval = some i ∧ 0 < i) →
      ∃ dc, NewCache cfg = Except.ok dc
        ∧ dc.data = [] ∧ dc.UpdateFuncs = [] ∧ dc.config = cfg) := by
  constructor
  · rintro ⟨i, hi, hle⟩
    unfold NewCache
    rw [hi]
    simp [hle]
  · rintro (hn | ⟨i, hi, hpos⟩)
    · refine ⟨{ data := [], config := cfg, taskRunning := false, UpdateFuncs := [] },
        ?_, rfl, rfl, rfl⟩
      unfold NewCache
      rw [hn]
    · refine ⟨{ data := [], config := cfg, taskRunning := false, UpdateFuncs := [] },
        ?_, rfl, rfl, rfl⟩
      unfold NewCache
      rw [hi]
      simp [not_le.mpr hpos]

/-- Witness for C6 at interval zero and at an absent interval. -/
theorem newCache_interval_validation_witness :
    NewCache ⟨some 0⟩ = Except.error "cache update interval duration is less than or equal to 0"
    ∧ ∃ dc, NewCache ⟨none⟩ = Except.ok dc
        ∧ dc.data = [] ∧ dc.UpdateFuncs = [] ∧ dc.config = ⟨none⟩ :=
  ⟨(newCache_interval_validation ⟨some 0⟩).1 ⟨0, rfl, le_refl 0⟩,
   (newCache_interval_validation ⟨none⟩).2 (Or.inl rfl)⟩

/-! ### C7 -/

/-- An interval-configured cache on which updates were never started. -/
def neverStartedCache : Cache :=
  { data := [], config := ⟨some 1⟩, taskRunning := false, UpdateFuncs := [] }

/-- C7 counterexample: on an interval-configured cache whose background
task was never started, `Close` blocks forever on the unbuffered `close`
channel (`none` in the model), so the call is not a safe no-op that
returns without blocking. -/
theorem close_never_started_blocks_cex : Close neverStartedCache = none :=
  rfl

/-- C7 (amended): `Close` is a safe no-op (returns, state unchanged)
when no update interval is configured, arbitrarily many times; on an
interval-configured cache, `Close` blocks forever whenever the
background task is not currently running — in particular when
`StartUpdates` was never started, after the task has already exited, and
on any second `Close` following a completed one. -/
theorem close_blocking_behavior (dc : Cache) :
    (dc.config.UpdateInterval = none → Close dc = some dc)
    ∧ (dc.config.UpdateInterval.isSome = true → dc.taskRunning = false → Close dc = none)
    ∧ (∀ dc', dc.config.UpdateInterval.isSome = true → Close dc = some dc' →
        Close dc' = none) := by
  refine ⟨?_, ?_, ?_⟩
  · intro hn
    unfold Close
    rw [hn]
  · intro hi ht
    obtain ⟨i, hi'⟩ := Option.isSome_iff_exists.mp hi
    unfold Close
    rw [hi']
    simp [ht]
  · intro dc' hi hclose
    obtain ⟨i, hi'⟩ := Option.isSome_iff_exists.mp hi
    unfold Close at hclose ⊢
    rw [hi'] at hclose
    by_cases ht : dc.taskRunning
    · simp only [ht, if_true] at hclose
      cases hclose
      simp [hi']
    · simp [ht] at hclose

/-- Witness for the amended C7 theorem at `nilCloseCache` and
`neverStartedCache`. -/
theorem close_blocking_behavior_witness :
    Close nilCloseCache = some nilCloseCache ∧ Close neverStartedCache = none :=
  ⟨(close_blocking_behavior nilCloseCache).1 rfl,
   (close_blocking_behavior neverStartedCache).2.1 rfl rfl⟩

/-! ### C8 -/

/-- A freshly constructed nil-interval cache. -/
def fresh8 : Cache :=
  { data := [], config := ⟨none⟩, taskRunning := false, UpdateFuncs := [] }

/-- C8: on a freshly constructed cache, `Get` returns not-found for
every key; and after any trace of operations (direct `Set` calls,
registrations, refresh cycles, `StartUpdates`, `Close`, external
cancellation), `Get key` returns not-found exactly when no operation of
the trace wrote a value under that key. -/
theorem get_not_found_iff_never_written (cfg : Config) (dc : Cache)
    (h : NewCache cfg = Except.ok dc) :
    (∀ key, Get dc key = none)
    ∧ (∀ ops key, Get (runOps dc ops) key = none ↔ wroteAlong dc ops key = false) := by
  obtain ⟨hd, -, -, -⟩ := newCache_ok cfg dc h
  constructor
  · intro key
    simp [Get, hd, storeGet]
  · intro ops key
    rw [Get, runOps_none_iff]
    simp [hd, storeGet]

/-- Witness for C8 at the cache constructed from the nil-interval
configuration. -/
theorem get_not_found_iff_never_written_witness :
    (∀ key, Get fresh8 key = none)
    ∧ (∀ ops key, Get (runOps fresh8 ops) key = none ↔ wroteAlong fresh8 ops key = false) :=
  get_not_found_iff_never_written ⟨none⟩ fresh8 rfl

/-! ### C9 -/

/-- An interval-configured cache with stored data and an empty registry. -/
def emptyRegCache : Cache :=
  { data := [("x", GoVal.int 1)], config := ⟨some 5⟩, taskRunning := false,
    UpdateFuncs := [] }

/-- C9: with an empty update-function registry, `StartUpdates` returns
immediately without spawning a background task and without writing to
the store, even when a positive update interval is configured: the
state, in particular every stored value, is unchanged. -/
theorem startUpdates_empty_registry_noop (dc : Cache) (h : dc.UpdateFuncs = []) :
    StartUpdates dc = (dc, false)
    ∧ ∀ key, Get (StartUpdates dc).1 key = Get dc key := by
  have hs : StartUpdates dc = (dc, false) := by
    unfold StartUpdates
    simp [h]
  exact ⟨hs, fun key => by rw [hs]⟩

/-- Witness for C9 at `emptyRegCache`. -/
theorem startUpdates_empty_registry_noop_witness :
    StartUpdates emptyRegCache = (emptyRegCache, false)
    ∧ ∀ key, Get (StartUpdates emptyRegCache).1 key = Get emptyRegCache key :=
  startUpdates_empty_registry_noop emptyRegCache rfl

/-! ### C10 -/

/-- Update function returning the untyped Go `nil`. -/
def fnOkNil : UpdateFn := fun _ => Except.ok GoVal.nil

/-- An interval-configured running cache with a registered key that was
never written and an unregistered key holding a non-string value. -/
def wipeCache : Cache :=
  { data := [("other", GoVal.int 7)], config := ⟨some 5⟩, taskRunning := true,
    UpdateFuncs := [("reg", fnOkNil)] }

/-- C10: on an interval-configured cache whose background task is
running, `Close` stores the literal empty string under each registered
key, regardless of the type of any previously stored value — a
registered key that was never written afterwards reads back as found
with the empty string — while every key not present in the registry
keeps its previous lookup result unchanged. -/
theorem close_wipes_registered_keys_only (dc : Cache)
    (hi : dc.config.UpdateInterval.isSome = true) (ht : dc.taskRunning = true) :
    ∃ dc', Close dc = some dc'
      ∧ (∀ key ∈ dc.UpdateFuncs.map Prod.fst, Get dc' key = some (GoVal.str ""))
      ∧ (∀ key, key ∉ dc.UpdateFuncs.map Prod.fst → Get dc' key = Get dc key) := by
  obtain ⟨i, hi'⟩ := Option.isSome_iff_exists.mp hi
  have hc : Close dc = some
      { dc with
        data := wipeKeys (dc.UpdateFuncs.map Prod.fst) dc.data,
        UpdateFuncs := [],
        taskRunning := false } := by
    unfold Close
    rw [hi']
    simp [ht]
  refine ⟨_, hc, ?_, ?_⟩
  · intro key hk
    simp [Get, storeGet_wipeKeys, hk]
  · intro key hk
    simp [Get, storeGet_wipeKeys, hk]

/-- Witness for C10 at `wipeCache`: the registered never-written key reg
reads back as the empty string, the unregistered key other keeps its
integer value. -/
theorem close_wipes_registered_keys_only_witness :
    ∃ dc', Close wipeCache = some dc'
      ∧ (∀ key ∈ wipeCache.UpdateFuncs.map Prod.fst, Get dc' key = some (GoVal.str ""))
      ∧ (∀ key, key ∉ wipeCache.UpdateFuncs.map Prod.fst → Get dc' key = Get wipeCache key) :=
  close_wipes_registered_keys_only wipeCache rfl rfl

end DpCache
